import Mathlib

/-!
Verification development for the `service` Go repository.

The definitions below are a shallow embedding of `src/service.go` (the current
snapshot, whose interface is `Config / Dependencies / AddDependency / Dispatch /
AddEventListener / RemoveEventListener / propagateEvent / setParent`) together
with `src/event.go`.  Go maps are embedded as association lists (insertion is a
cons, deletion removes every binding of the key; lookups observe exactly the Go
map), Go slices of handlers as `List (Option EventHandler)` where `none` is the
`nil` tombstone written by `RemoveEventListener`, and Go booleans as `Bool`.
Handlers are modelled as pure values carrying an identity tag and a boolean
result function of the event, so that a dispatch can be characterised by the
sequence of handler invocations it performs.
-/

namespace ServiceRepo

/-- `type EventVariant string` from `src/event.go`. -/
abbrev EventVariant := String

/-- `const ALL_EVENTS EventVariant = "ALL_EVENTS"` from `src/event.go`. -/
def ALL_EVENTS : EventVariant := "ALL_EVENTS"

/-- `Event` from `src/event.go`: a variant tag plus an opaque payload
(payloads are modelled as natural numbers; the core only passes them through). -/
structure Event where
  variant : EventVariant
  payload : Nat

/-- An event handler: an identity tag (to speak about which handler was
invoked) and the boolean it returns for a given event
(`type EventHandler func(...) (willPropagate bool)` in `src/event.go`). -/
structure EventHandler where
  hid : Nat
  ret : Event → Bool

/-- Lookup in an association list; mirrors a Go map read (first binding wins,
insertion below always conses, so the newest binding is found). -/
def lookupA {κ α : Type} [DecidableEq κ] : List (κ × α) → κ → Option α
  | [], _ => none
  | (k1, a) :: m, k => if k = k1 then some a else lookupA m k

/-- Go map insertion, observed through `lookupA`. -/
def insertA {κ α : Type} (m : List (κ × α)) (k : κ) (a : α) : List (κ × α) :=
  (k, a) :: m

/-- Go `delete(m, k)`: removes every binding of `k`. -/
def eraseA {κ α : Type} [DecidableEq κ] : List (κ × α) → κ → List (κ × α)
  | [], _ => []
  | (k1, a) :: m, k => if k1 = k then eraseA m k else (k1, a) :: eraseA m k

/-- The `Service` struct of `src/service.go` (lines 169-181).  The `parent`
and `embeddedIn` references are handled outside this structure: parent chains
are modelled explicitly as lists of services, and the embedding composite's
declared fields are modelled by the `Composite` structure below. -/
structure Service where
  config : Option Nat
  eventHandlersCount : Nat
  variantByEventId : List (Nat × EventVariant)
  eventHandlerIdxByEventId : List (Nat × Nat)
  eventHandlersByVariant : List (EventVariant × List (Option EventHandler))

/-- `func (s *Service) Config() ConfigI` (lines 183-185). -/
def Service.Config (s : Service) : Option Nat :=
  s.config

/-- `func NewService(service ServiceI, config ConfigI) *Service`
(lines 187-197): fresh empty maps, zero id counter, the given config. -/
def NewService (config : Option Nat) : Service :=
  { config := config
    eventHandlersCount := 0
    variantByEventId := []
    eventHandlerIdxByEventId := []
    eventHandlersByVariant := [] }

/-- `func (s *Service) AddEventListener(...)` (lines 256-267): the returned id
is the running counter, the handler is appended to the variant's slice, and
both id-indexed maps record the registration.  Returns the updated service and
the issued id. -/
def AddEventListener (s : Service) (v : EventVariant) (h : EventHandler) :
    Service × Nat :=
  let eventId := s.eventHandlersCount
  let hs := (lookupA s.eventHandlersByVariant v).getD []
  let eventHandlerIdx := hs.length
  ({ s with
      eventHandlersCount := eventId + 1
      variantByEventId := insertA s.variantByEventId eventId v
      eventHandlerIdxByEventId :=
        insertA s.eventHandlerIdxByEventId eventId eventHandlerIdx
      eventHandlersByVariant :=
        insertA s.eventHandlersByVariant v (hs ++ [some h]) },
   eventId)

/-- `func (s *Service) RemoveEventListener(eventId int)` (lines 269-281):
if the id is unknown in either map the call returns with no effect; otherwise
the slot in the variant's slice is overwritten with `nil` (here `none`) and
both id-indexed bindings are deleted.  (The Go slice store is in range for
every state reachable through the API, see the invariant below.) -/
def RemoveEventListener (s : Service) (eventId : Nat) : Service :=
  match lookupA s.variantByEventId eventId with
  | none => s
  | some variant =>
    match lookupA s.eventHandlerIdxByEventId eventId with
    | none => s
    | some eventHandlerIdx =>
      { s with
          eventHandlersByVariant :=
            insertA s.eventHandlersByVariant variant
              (((lookupA s.eventHandlersByVariant variant).getD []).set
                eventHandlerIdx none)
          variantByEventId := eraseA s.variantByEventId eventId
          eventHandlerIdxByEventId :=
            eraseA s.eventHandlerIdxByEventId eventId }

/-- One handler loop of `Dispatch` (lines 202-207 and 210-215): skip `nil`
slots; otherwise execute `willPropagate = willPropagate && eventHandler(event)`.
Go's `&&` short-circuits, so the handler is invoked only while `willPropagate`
is still true.  Returns the sequence of handlers actually invoked and the
final `willPropagate`. -/
def runHandlers (e : Event) : List (Option EventHandler) → Bool →
    List EventHandler × Bool
  | [], w => ([], w)
  | none :: rest, w => runHandlers e rest w
  | some h :: rest, w =>
    if w then
      let r := runHandlers e rest (h.ret e)
      (h :: r.1, r.2)
    else
      runHandlers e rest false

/-- The slice `s.eventHandlersByVariant[v]` (empty when the variant is absent,
in which case the corresponding `if ok` loop of `Dispatch` runs zero times). -/
def handlersFor (s : Service) (v : EventVariant) : List (Option EventHandler) :=
  (lookupA s.eventHandlersByVariant v).getD []

/-- The body of `Dispatch` before propagation (lines 199-216): the loop over
the exact-variant slice starting from `willPropagate = true`, then the loop
over the `ALL_EVENTS` slice continuing from the running value. -/
def handlersRun (s : Service) (e : Event) : List EventHandler × Bool :=
  let r1 := runHandlers e (handlersFor s e.variant) true
  let r2 := runHandlers e (handlersFor s ALL_EVENTS) r1.2
  (r1.1 ++ r2.1, r2.2)

/-- `Dispatch` together with `propagateEvent` (lines 199-220 and 283-288) over
an explicit parent chain: the head of the list is the node dispatched on, the
tail is its chain of ancestors (`propagateEvent` returns at once when `parent`
is `nil`, i.e. when the tail is empty).  The result is the per-node invocation
trace, one entry per node that received the event. -/
def Dispatch : List Service → Event → List (List EventHandler)
  | [], _ => []
  | s :: parents, e =>
    let r := handlersRun s e
    if r.2 then r.1 :: Dispatch parents e else [r.1]

/-! ### Specification-side descriptions of a dispatch -/

/-- The live (not tombstoned) handlers of a slice, in slice order. -/
def liveOf (hs : List (Option EventHandler)) : List EventHandler :=
  hs.filterMap id

/-- The live handlers registered at `s` for variant `v`, in registration
order. -/
def live (s : Service) (v : EventVariant) : List EventHandler :=
  liveOf (handlersFor s v)

/-- The prefix of a handler list that a short-circuiting conjunction starting
from `w` actually invokes: nothing once the accumulator is false, and
otherwise each handler in turn, the accumulator becoming that handler's
return value. -/
def invokedFrom (e : Event) : Bool → List EventHandler → List EventHandler
  | false, _ => []
  | true, [] => []
  | true, h :: rest => h :: invokedFrom e (h.ret e) rest

theorem invokedFrom_false (e : Event) (l : List EventHandler) :
    invokedFrom e false l = [] := by
  cases l <;> rfl

theorem runHandlers_eq (e : Event) :
    ∀ (hs : List (Option EventHandler)) (w : Bool),
      runHandlers e hs w =
        (invokedFrom e w (liveOf hs),
         w && (liveOf hs).all (fun h => h.ret e)) := by
  intro hs
  induction hs with
  | nil => intro w; cases w <;> rfl
  | cons o rest ih =>
    intro w
    cases o with
    | none =>
      simpa [runHandlers, liveOf, List.filterMap_cons] using ih w
    | some h =>
      cases w with
      | false =>
        simp [runHandlers, liveOf, List.filterMap_cons, ih false,
          invokedFrom_false]
      | true =>
        simp [runHandlers, liveOf, List.filterMap_cons, ih (h.ret e),
          invokedFrom, List.all_cons, Bool.and_assoc]

theorem invokedFrom_append (e : Event) :
    ∀ (A B : List EventHandler) (w : Bool),
      invokedFrom e w (A ++ B) =
        invokedFrom e w A ++ invokedFrom e (w && A.all (fun h => h.ret e)) B := by
  intro A
  induction A with
  | nil =>
    intro B w
    cases w <;> simp [invokedFrom, invokedFrom_false]
  | cons h rest ih =>
    intro B w
    cases w with
    | false => simp [invokedFrom_false]
    | true =>
      simp [invokedFrom, List.cons_append, ih B (h.ret e), List.all_cons]

theorem handlersRun_fst (s : Service) (e : Event) :
    (handlersRun s e).1 =
      invokedFrom e true (live s e.variant) ++
        invokedFrom e ((live s e.variant).all (fun h => h.ret e))
          (live s ALL_EVENTS) := by
  simp [handlersRun, runHandlers_eq, live]

theorem handlersRun_snd (s : Service) (e : Event) :
    (handlersRun s e).2 =
      ((live s e.variant).all (fun h => h.ret e) &&
        (live s ALL_EVENTS).all (fun h => h.ret e)) := by
  simp [handlersRun, runHandlers_eq, live, Bool.and_assoc]

theorem mem_invokedFrom (e : Event) :
    ∀ (l : List EventHandler) (w : Bool) (h : EventHandler),
      h ∈ invokedFrom e w l → h ∈ l := by
  intro l
  induction l with
  | nil => intro w h hm; cases w <;> simp [invokedFrom, invokedFrom_false] at hm
  | cons h0 rest ih =>
    intro w h hm
    cases w with
    | false => simp [invokedFrom_false] at hm
    | true =>
      simp only [invokedFrom, List.mem_cons] at hm
      rcases hm with hm | hm
      · exact hm ▸ List.mem_cons_self h0 rest
      · exact List.mem_cons_of_mem h0 (ih (h0.ret e) h hm)

theorem mem_liveOf (hs : List (Option EventHandler)) (h : EventHandler)
    (hm : h ∈ liveOf hs) : some h ∈ hs := by
  simp only [liveOf, List.mem_filterMap, id] at hm
  rcases hm with ⟨o, ho, rfl⟩
  exact ho

theorem all_invokedFrom (e : Event) :
    ∀ (l : List EventHandler) (w : Bool),
      (w && (invokedFrom e w l).all (fun h => h.ret e)) =
        (w && l.all (fun h => h.ret e)) := by
  intro l
  induction l with
  | nil => intro w; cases w <;> rfl
  | cons h rest ih =>
    intro w
    cases w with
    | false => rfl
    | true =>
      simp only [invokedFrom, List.all_cons, Bool.true_and, ← Bool.and_assoc]
      have := ih (h.ret e)
      cases hr : h.ret e with
      | false => simp
      | true => simpa [hr] using ih true

/-- The number of nodes of a parent chain that receive a dispatched event:
every node up to and including the first one whose local `willPropagate`
came out false (the whole chain when no node vetoes). -/
def propLen : List Service → Event → Nat
  | [], _ => 0
  | s :: rest, e => if (handlersRun s e).2 then propLen rest e + 1 else 1

/-! ### Claims C1, C2, C3 -/

/-- **C1** (amended).  For every node and dispatched event, the handlers
invoked during the local part of one `Dispatch` call are, out of the
concatenation of the live exact-variant handler list and the live wildcard
(`ALL_EVENTS`) handler list — both in registration order — the prefix
extending through the first handler that returns false (later handlers are
skipped because Go's `&&` short-circuits), and every invoked handler occupies
a non-tombstoned slot, so removed handlers are never invoked.  When the
event's own variant is `ALL_EVENTS` the two lists are the same list, so the
wildcard handlers appear twice in the concatenation and can each run twice
(the original claim's "at most once per dispatch, including an event whose
own variant is ALL_EVENTS" fails there, see the counterexample). -/
theorem c1_dispatch_invoked_sequence (s : Service) (e : Event) :
    (handlersRun s e).1 =
      invokedFrom e true (live s e.variant ++ live s ALL_EVENTS) ∧
    ∀ h ∈ (handlersRun s e).1,
      some h ∈ handlersFor s e.variant ∨ some h ∈ handlersFor s ALL_EVENTS := by
  constructor
  · rw [handlersRun_fst, invokedFrom_append, Bool.true_and]
  · intro h hm
    rw [handlersRun_fst] at hm
    rcases List.mem_append.1 hm with hm | hm
    · exact Or.inl (mem_liveOf _ _ (mem_invokedFrom e _ true h hm))
    · exact Or.inr (mem_liveOf _ _ (mem_invokedFrom e _ _ h hm))

/-- A handler that always returns true, used in concrete instances. -/
def hTrue : EventHandler := ⟨0, fun _ => true⟩

/-- A node with a single wildcard listener. -/
def svcOneWildcard : Service :=
  (AddEventListener (NewService none) ALL_EVENTS hTrue).1

/-- An event whose own variant is the wildcard variant. -/
def evAll : Event := ⟨ALL_EVENTS, 0⟩

/-- **C1** counterexample: on a node with exactly one live registered handler
(a wildcard listener), dispatching an event whose variant is `ALL_EVENTS`
invokes that one handler twice — the exact-variant loop and the wildcard loop
of `Dispatch` read the same map entry — refuting "each handler is invoked at
most once per dispatch call ... including an event whose own variant is
ALL_EVENTS". -/
theorem c1_counterexample :
    live svcOneWildcard ALL_EVENTS = [hTrue] ∧
    (handlersRun svcOneWildcard evAll).1 = [hTrue, hTrue] := by
  exact ⟨rfl, rfl⟩

/-- **C1** witness: the amended characterisation evaluated on the concrete
one-wildcard node and a concrete event, with the membership hypothesis
discharged at the invoked handler. -/
theorem c1_dispatch_invoked_sequence_witness :
    (handlersRun svcOneWildcard evAll).1 =
      invokedFrom evAll true
        (live svcOneWildcard evAll.variant ++ live svcOneWildcard ALL_EVENTS) ∧
    (some hTrue ∈ handlersFor svcOneWildcard evAll.variant ∨
      some hTrue ∈ handlersFor svcOneWildcard ALL_EVENTS) :=
  ⟨(c1_dispatch_invoked_sequence svcOneWildcard evAll).1,
   (c1_dispatch_invoked_sequence svcOneWildcard evAll).2 hTrue
     (show hTrue ∈ [hTrue, hTrue] from List.mem_cons_self _ _)⟩

/-- **C2** (amended).  During the local part of a `Dispatch` call, handlers
run in order only while the running conjunction is still true: once a handler
returns false the remaining handlers are skipped (`willPropagate &&
handler(event)` short-circuits in Go), so "all registered handlers still run
to completion" fails (see the counterexample).  The forwarding condition is
as claimed: the event is forwarded to the parent iff the logical AND,
starting from true, over the return values of every handler invoked in this
call is true (equivalently, over all live handlers). -/
theorem c2_veto_aggregate (s : Service) (ps : List Service) (e : Event) :
    (handlersRun s e).2 =
      (live s e.variant ++ live s ALL_EVENTS).all (fun h => h.ret e) ∧
    (handlersRun s e).2 = (handlersRun s e).1.all (fun h => h.ret e) ∧
    Dispatch (s :: ps) e =
      (if (live s e.variant ++ live s ALL_EVENTS).all (fun h => h.ret e)
        then (handlersRun s e).1 :: Dispatch ps e
        else [(handlersRun s e).1]) := by
  refine ⟨by rw [handlersRun_snd, List.all_append], ?_, ?_⟩
  · rw [handlersRun_snd, handlersRun_fst, List.all_append]
    have h1 : (invokedFrom e true (live s e.variant)).all (fun h => h.ret e) =
        (live s e.variant).all (fun h => h.ret e) := by
      simpa using all_invokedFrom e (live s e.variant) true
    rw [h1]
    cases ha : (live s e.variant).all (fun h => h.ret e) with
    | false => simp [invokedFrom_false]
    | true =>
      simpa using (all_invokedFrom e (live s ALL_EVENTS) true).symm
  · simp only [Dispatch]
    rw [show (handlersRun s e).2 =
      (live s e.variant ++ live s ALL_EVENTS).all (fun h => h.ret e) by
        rw [handlersRun_snd, List.all_append]]

/-- A handler with identity tag 1 that always vetoes. -/
def hVeto : EventHandler := ⟨1, fun _ => false⟩

/-- A handler with identity tag 2 that always allows. -/
def hAllow : EventHandler := ⟨2, fun _ => true⟩

/-- A node with two listeners on variant "someEvent": first a vetoing one,
then an allowing one. -/
def svcVetoFirst : Service :=
  (AddEventListener
    (AddEventListener (NewService none) "someEvent" hVeto).1
    "someEvent" hAllow).1

/-- An event of variant "someEvent". -/
def evSome : Event := ⟨"someEvent", 12⟩

/-- **C2** counterexample: with two live handlers registered for the
dispatched variant, the first returning false, only the first is invoked —
the second live registered handler never runs, refuting "every live
registered handler ... runs to completion even when an earlier handler in the
same call returned false — there is no short-circuit". -/
theorem c2_counterexample :
    live svcVetoFirst "someEvent" = [hVeto, hAllow] ∧
    (handlersRun svcVetoFirst evSome).1 = [hVeto] ∧
    hAllow ∉ (handlersRun svcVetoFirst evSome).1 := by
  refine ⟨rfl, rfl, ?_⟩
  intro hm
  rw [show (handlersRun svcVetoFirst evSome).1 = [hVeto] from rfl] at hm
  rw [List.mem_singleton] at hm
  exact absurd (congrArg EventHandler.hid hm) (by decide)

/-- **C3** (amended).  An event dispatched at the head of a parent chain is
re-dispatched at each successive ancestor until the chain ends or until the
first node whose local aggregate came out false; no node strictly above that
vetoing node receives the event.  At the vetoing node itself, handlers run
only up to and including the first one that returned false (the original
claim's "all handlers at the vetoing node itself still run" fails, see the
counterexample).  A node with no live handlers for either the exact variant
or the wildcard forwards the event unchanged, and dispatch on a node with no
parent simply ends. -/
theorem c3_propagation_chain (chain : List Service) (e : Event) :
    Dispatch chain e =
      (chain.map (fun s => (handlersRun s e).1)).take (propLen chain e) ∧
    (∀ s : Service, live s e.variant = [] → live s ALL_EVENTS = [] →
      (handlersRun s e).2 = true) ∧
    (∀ (s : Service) (ps : List Service), (handlersRun s e).2 = false →
      Dispatch (s :: ps) e = [(handlersRun s e).1]) ∧
    Dispatch [] e = ([] : List (List EventHandler)) := by
  refine ⟨?_, ?_, ?_, rfl⟩
  · induction chain with
    | nil => rfl
    | cons s ps ih =>
      show (let r := handlersRun s e;
        if r.2 then r.1 :: Dispatch ps e else [r.1]) = _
      cases hsnd : (handlersRun s e).2 with
      | false => simp [propLen, hsnd]
      | true => simp [propLen, hsnd, ih]
  · intro s h1 h2
    rw [handlersRun_snd, h1, h2]
    rfl
  · intro s ps h
    simp [Dispatch, h]

/-- A handler with identity tag 3 that always vetoes. -/
def hVeto3 : EventHandler := ⟨3, fun _ => false⟩

/-- A handler with identity tag 4 that always allows. -/
def hAllow3 : EventHandler := ⟨4, fun _ => true⟩

/-- A child node with two listeners on variant "v3", the first vetoing. -/
def childVeto : Service :=
  (AddEventListener
    (AddEventListener (NewService none) "v3" hVeto3).1
    "v3" hAllow3).1

/-- A parent node with one listener on variant "v3". -/
def parentWithListener : Service :=
  (AddEventListener (NewService none) "v3" hTrue).1

/-- An event of variant "v3". -/
def evV3 : Event := ⟨"v3", 7⟩

/-- **C3** counterexample: in a two-node chain whose child holds a vetoing
handler followed by a live allowing handler, the dispatch trace is `[[hVeto3]]`:
the parent (strictly above the vetoing node) correctly receives nothing, but
the second live handler at the vetoing node itself is also never invoked,
refuting "while all handlers at the vetoing node itself still run". -/
theorem c3_counterexample :
    live childVeto "v3" = [hVeto3, hAllow3] ∧
    Dispatch [childVeto, parentWithListener] evV3 = [[hVeto3]] ∧
    hAllow3 ∉ [hVeto3] := by
  refine ⟨rfl, rfl, ?_⟩
  intro hm
  rw [List.mem_singleton] at hm
  exact absurd (congrArg EventHandler.hid hm) (by decide)

/-- A node with no listeners at all. -/
def svcNoHandlers : Service := NewService none

/-- **C3** witness: the chain characterisation evaluated on a concrete
two-node chain, the no-handler hypothesis discharged at a listener-free node,
and the veto hypothesis discharged at the concrete vetoing child. -/
theorem c3_propagation_chain_witness :
    Dispatch [childVeto, parentWithListener] evV3 =
      (([childVeto, parentWithListener].map
        (fun s => (handlersRun s evV3).1)).take
          (propLen [childVeto, parentWithListener] evV3)) ∧
    (handlersRun svcNoHandlers evV3).2 = true ∧
    Dispatch (childVeto :: [parentWithListener]) evV3 =
      [(handlersRun childVeto evV3).1] :=
  ⟨(c3_propagation_chain [childVeto, parentWithListener] evV3).1,
   (c3_propagation_chain [childVeto, parentWithListener] evV3).2.1
     svcNoHandlers rfl rfl,
   (c3_propagation_chain [childVeto, parentWithListener] evV3).2.2.1
     childVeto [parentWithListener] rfl⟩

/-! ### Association-list and list lemmas -/

theorem lookupA_cons_self {κ α : Type} [DecidableEq κ] (m : List (κ × α))
    (k : κ) (a : α) : lookupA ((k, a) :: m) k = some a := by
  simp [lookupA]

theorem lookupA_cons_ne {κ α : Type} [DecidableEq κ] (m : List (κ × α))
    (k k0 : κ) (a : α) (h : k0 ≠ k) :
    lookupA ((k, a) :: m) k0 = lookupA m k0 := by
  simp [lookupA, h]

theorem lookupA_eraseA_self {κ α : Type} [DecidableEq κ] :
    ∀ (m : List (κ × α)) (k : κ), lookupA (eraseA m k) k = none := by
  intro m
  induction m with
  | nil => intro k; rfl
  | cons p m ih =>
    intro k
    obtain ⟨k1, a⟩ := p
    by_cases h : k1 = k
    · simpa [eraseA, h] using ih k
    · have hne : k ≠ k1 := fun hk => h hk.symm
      simp [eraseA, h, lookupA, hne, ih k]

theorem lookupA_eraseA_ne {κ α : Type} [DecidableEq κ] :
    ∀ (m : List (κ × α)) (k k0 : κ), k0 ≠ k →
      lookupA (eraseA m k) k0 = lookupA m k0 := by
  intro m
  induction m with
  | nil => intro k k0 _; rfl
  | cons p m ih =>
    intro k k0 hne
    obtain ⟨k1, a⟩ := p
    by_cases h : k1 = k
    · subst h
      simp [eraseA, lookupA, hne, ih k1 k0 hne]
    · by_cases h0 : k0 = k1
      · subst h0
        simp [eraseA, h, lookupA]
      · simp [eraseA, h, lookupA, h0, ih k k0 hne]

theorem get?_append_left {α : Type} :
    ∀ (l1 l2 : List α) (n : Nat), n < l1.length →
      (l1 ++ l2).get? n = l1.get? n := by
  intro l1
  induction l1 with
  | nil => intro l2 n h; cases h
  | cons a l ih =>
    intro l2 n h
    cases n with
    | zero => rfl
    | succ n => simpa using ih l2 n (Nat.lt_of_succ_lt_succ h)

theorem get?_append_length {α : Type} :
    ∀ (l : List α) (a : α), (l ++ [a]).get? l.length = some a := by
  intro l
  induction l with
  | nil => intro a; rfl
  | cons b l ih => intro a; simp [ih a]

theorem get?_set_of_ne {α : Type} :
    ∀ (l : List α) (i j : Nat) (x : α), j ≠ i →
      (l.set i x).get? j = l.get? j := by
  intro l
  induction l with
  | nil => intro i j x _; rfl
  | cons a l ih =>
    intro i j x h
    cases i with
    | zero =>
      cases j with
      | zero => exact absurd rfl h
      | succ j => rfl
    | succ i =>
      cases j with
      | zero => rfl
      | succ j => simpa using ih i j x (fun hj => h (by rw [hj]))

theorem lt_length_of_get?_eq_some {α : Type} :
    ∀ (l : List α) (n : Nat) (a : α), l.get? n = some a → n < l.length := by
  intro l
  induction l with
  | nil => intro n a h; cases h
  | cons b l ih =>
    intro n a h
    cases n with
    | zero => exact Nat.succ_pos _
    | succ n => exact Nat.succ_lt_succ (ih n a (by simpa using h))

/-! ### Listener-registration state machine and its invariant -/

/-- One listener-table operation on a single `Service` instance. -/
inductive SOp where
  | addL (v : EventVariant) (h : EventHandler)
  | removeL (eventId : Nat)

/-- Apply one operation. -/
def stepS (s : Service) : SOp → Service
  | .addL v h => (AddEventListener s v h).1
  | .removeL eventId => RemoveEventListener s eventId

/-- Run a sequence of listener-table operations. -/
def execS : List SOp → Service → Service
  | [], s => s
  | op :: ops, s => execS ops (stepS s op)

/-- The variant recorded for an issued id (`s.variantByEventId[eventId]`). -/
def regVariant (s : Service) (eventId : Nat) : Option EventVariant :=
  lookupA s.variantByEventId eventId

/-- The slot index recorded for an issued id
(`s.eventHandlerIdxByEventId[eventId]`). -/
def regIdx (s : Service) (eventId : Nat) : Option Nat :=
  lookupA s.eventHandlerIdxByEventId eventId

/-- The slot contents a registration's id and index point at. -/
def regSlot (s : Service) (eventId : Nat) : Option (Option EventHandler) :=
  match regVariant s eventId, regIdx s eventId with
  | some v, some i => (handlersFor s v).get? i
  | _, _ => none

/-- Invariant of the listener tables: every issued id is below the counter,
the two id-indexed maps have the same ids, every live registration points at
an in-range, non-tombstoned slot of its variant's slice, and no two distinct
live registrations of the same variant share a slot index. -/
def Inv (s : Service) : Prop :=
  (∀ eventId v, lookupA s.variantByEventId eventId = some v →
    eventId < s.eventHandlersCount) ∧
  (∀ eventId i, lookupA s.eventHandlerIdxByEventId eventId = some i →
    eventId < s.eventHandlersCount) ∧
  (∀ eventId v, lookupA s.variantByEventId eventId = some v →
    ∃ i, lookupA s.eventHandlerIdxByEventId eventId = some i ∧
      ∃ h, (handlersFor s v).get? i = some (some h)) ∧
  (∀ id1 id2 v i, lookupA s.variantByEventId id1 = some v →
    lookupA s.variantByEventId id2 = some v →
    lookupA s.eventHandlerIdxByEventId id1 = some i →
    lookupA s.eventHandlerIdxByEventId id2 = some i →
    id1 = id2)

theorem inv_NewService (cfg : Option Nat) : Inv (NewService cfg) := by
  refine ⟨?_, ?_, ?_, ?_⟩
  · intro a b h
    exact nomatch h
  · intro a b h
    exact nomatch h
  · intro a b h
    exact nomatch h
  · intro a b v i h1 h2 h3 h4
    exact nomatch h1

theorem inv_AddEventListener (s : Service) (v : EventVariant)
    (h : EventHandler) (hs : Inv s) : Inv (AddEventListener s v h).1 := by
  obtain ⟨h1, h2, h3, h4⟩ := hs
  refine ⟨?_, ?_, ?_, ?_⟩
  · intro id0 v0 hl
    by_cases hid : id0 = s.eventHandlersCount
    · subst hid; exact Nat.lt_succ_self _
    · rw [show (AddEventListener s v h).1.variantByEventId =
        (s.eventHandlersCount, v) :: s.variantByEventId from rfl,
        lookupA_cons_ne _ _ _ _ hid] at hl
      exact Nat.lt_succ_of_lt (h1 id0 v0 hl)
  · intro id0 i0 hl
    by_cases hid : id0 = s.eventHandlersCount
    · subst hid; exact Nat.lt_succ_self _
    · rw [show (AddEventListener s v h).1.eventHandlerIdxByEventId =
        (s.eventHandlersCount, (handlersFor s v).length) ::
          s.eventHandlerIdxByEventId from rfl,
        lookupA_cons_ne _ _ _ _ hid] at hl
      exact Nat.lt_succ_of_lt (h2 id0 i0 hl)
  · intro id0 v0 hl
    by_cases hid : id0 = s.eventHandlersCount
    · subst hid
      rw [show (AddEventListener s v h).1.variantByEventId =
        (s.eventHandlersCount, v) :: s.variantByEventId from rfl,
        lookupA_cons_self] at hl
      obtain rfl : v = v0 := by injection hl
      refine ⟨(handlersFor s v).length, ?_, h, ?_⟩
      · exact lookupA_cons_self _ _ _
      · show (handlersFor (AddEventListener s v h).1 v).get?
          (handlersFor s v).length = some (some h)
        rw [show handlersFor (AddEventListener s v h).1 v =
          handlersFor s v ++ [some h] by
            simp [handlersFor, AddEventListener, insertA, lookupA]]
        exact get?_append_length _ _
    · rw [show (AddEventListener s v h).1.variantByEventId =
        (s.eventHandlersCount, v) :: s.variantByEventId from rfl,
        lookupA_cons_ne _ _ _ _ hid] at hl
      obtain ⟨i, hi, h0, hslot⟩ := h3 id0 v0 hl
      refine ⟨i, ?_, h0, ?_⟩
      · rw [show (AddEventListener s v h).1.eventHandlerIdxByEventId =
          (s.eventHandlersCount, (handlersFor s v).length) ::
            s.eventHandlerIdxByEventId from rfl,
          lookupA_cons_ne _ _ _ _ hid]
        exact hi
      · by_cases hv : v0 = v
        · subst hv
          rw [show handlersFor (AddEventListener s v0 h).1 v0 =
            handlersFor s v0 ++ [some h] by
              simp [handlersFor, AddEventListener, insertA, lookupA]]
          rw [get?_append_left _ _ _ (lt_length_of_get?_eq_some _ _ _ hslot)]
          exact hslot
        · rw [show handlersFor (AddEventListener s v h).1 v0 =
            handlersFor s v0 by
              simp [handlersFor, AddEventListener, insertA,
                lookupA_cons_ne _ _ _ _ hv]]
          exact hslot
  · intro id1 id2 v0 i0 hv1 hv2 hi1 hi2
    rw [show (AddEventListener s v h).1.variantByEventId =
      (s.eventHandlersCount, v) :: s.variantByEventId from rfl] at hv1 hv2
    rw [show (AddEventListener s v h).1.eventHandlerIdxByEventId =
      (s.eventHandlersCount, (handlersFor s v).length) ::
        s.eventHandlerIdxByEventId from rfl] at hi1 hi2
    by_cases e1 : id1 = s.eventHandlersCount <;>
      by_cases e2 : id2 = s.eventHandlersCount
    · rw [e1, e2]
    · subst e1
      rw [lookupA_cons_self] at hv1 hi1
      rw [lookupA_cons_ne _ _ _ _ e2] at hv2 hi2
      obtain rfl : v = v0 := by injection hv1
      obtain rfl : (handlersFor s v).length = i0 := by injection hi1
      obtain ⟨i, hi, h0, hslot⟩ := h3 id2 v hv2
      rw [hi2] at hi
      obtain rfl : (handlersFor s v).length = i := by injection hi
      exact absurd (lt_length_of_get?_eq_some _ _ _ hslot)
        (Nat.lt_irrefl _)
    · subst e2
      rw [lookupA_cons_self] at hv2 hi2
      rw [lookupA_cons_ne _ _ _ _ e1] at hv1 hi1
      obtain rfl : v = v0 := by injection hv2
      obtain rfl : (handlersFor s v).length = i0 := by injection hi2
      obtain ⟨i, hi, h0, hslot⟩ := h3 id1 v hv1
      rw [hi1] at hi
      obtain rfl : (handlersFor s v).length = i := by injection hi
      exact absurd (lt_length_of_get?_eq_some _ _ _ hslot)
        (Nat.lt_irrefl _)
    · rw [lookupA_cons_ne _ _ _ _ e1] at hv1 hi1
      rw [lookupA_cons_ne _ _ _ _ e2] at hv2 hi2
      exact h4 id1 id2 v0 i0 hv1 hv2 hi1 hi2

theorem RemoveEventListener_noop (s : Service) (eventId : Nat)
    (h : lookupA s.variantByEventId eventId = none) :
    RemoveEventListener s eventId = s := by
  unfold RemoveEventListener
  rw [h]

theorem RemoveEventListener_noop2 (s : Service) (eventId : Nat)
    (v : EventVariant) (hv : lookupA s.variantByEventId eventId = some v)
    (hi : lookupA s.eventHandlerIdxByEventId eventId = none) :
    RemoveEventListener s eventId = s := by
  unfold RemoveEventListener
  rw [hv, hi]

theorem RemoveEventListener_eq (s : Service) (eventId : Nat)
    (v : EventVariant) (i : Nat)
    (hv : lookupA s.variantByEventId eventId = some v)
    (hi : lookupA s.eventHandlerIdxByEventId eventId = some i) :
    RemoveEventListener s eventId =
      { s with
          eventHandlersByVariant :=
            insertA s.eventHandlersByVariant v ((handlersFor s v).set i none)
          variantByEventId := eraseA s.variantByEventId eventId
          eventHandlerIdxByEventId :=
            eraseA s.eventHandlerIdxByEventId eventId } := by
  unfold RemoveEventListener
  rw [hv, hi]
  rfl

theorem count_RemoveEventListener (s : Service) (eventId : Nat) :
    (RemoveEventListener s eventId).eventHandlersCount =
      s.eventHandlersCount := by
  cases hv : lookupA s.variantByEventId eventId with
  | none => rw [RemoveEventListener_noop s eventId hv]
  | some v =>
    cases hi : lookupA s.eventHandlerIdxByEventId eventId with
    | none => rw [RemoveEventListener_noop2 s eventId v hv hi]
    | some i => rw [RemoveEventListener_eq s eventId v i hv hi]

theorem inv_RemoveEventListener (s : Service) (eventId : Nat)
    (hs : Inv s) : Inv (RemoveEventListener s eventId) := by
  cases hv : lookupA s.variantByEventId eventId with
  | none => rw [RemoveEventListener_noop s eventId hv]; exact hs
  | some v =>
    cases hi : lookupA s.eventHandlerIdxByEventId eventId with
    | none => rw [RemoveEventListener_noop2 s eventId v hv hi]; exact hs
    | some i =>
      rw [RemoveEventListener_eq s eventId v i hv hi]
      obtain ⟨h1, h2, h3, h4⟩ := hs
      refine ⟨?_, ?_, ?_, ?_⟩
      · intro id0 v0 hl
        by_cases hid : id0 = eventId
        · subst hid
          rw [show ({ s with
              eventHandlersByVariant :=
                insertA s.eventHandlersByVariant v ((handlersFor s v).set i none)
              variantByEventId := eraseA s.variantByEventId id0
              eventHandlerIdxByEventId :=
                eraseA s.eventHandlerIdxByEventId id0 } : Service).variantByEventId
              = eraseA s.variantByEventId id0 from rfl,
            lookupA_eraseA_self] at hl
          cases hl
        · rw [show ({ s with
              eventHandlersByVariant :=
                insertA s.eventHandlersByVariant v ((handlersFor s v).set i none)
              variantByEventId := eraseA s.variantByEventId eventId
              eventHandlerIdxByEventId :=
                eraseA s.eventHandlerIdxByEventId eventId } : Service).variantByEventId
              = eraseA s.variantByEventId eventId from rfl,
            lookupA_eraseA_ne _ _ _ hid] at hl
          exact h1 id0 v0 hl
      · intro id0 i0 hl
        by_cases hid : id0 = eventId
        · subst hid
          rw [show ({ s with
              eventHandlersByVariant :=
                insertA s.eventHandlersByVariant v ((handlersFor s v).set i none)
              variantByEventId := eraseA s.variantByEventId id0
              eventHandlerIdxByEventId :=
                eraseA s.eventHandlerIdxByEventId id0 } : Service).eventHandlerIdxByEventId
              = eraseA s.eventHandlerIdxByEventId id0 from rfl,
            lookupA_eraseA_self] at hl
          cases hl
        · rw [show ({ s with
              eventHandlersByVariant :=
                insertA s.eventHandlersByVariant v ((handlersFor s v).set i none)
              variantByEventId := eraseA s.variantByEventId eventId
              eventHandlerIdxByEventId :=
                eraseA s.eventHandlerIdxByEventId eventId } : Service).eventHandlerIdxByEventId
              = eraseA s.eventHandlerIdxByEventId eventId from rfl,
            lookupA_eraseA_ne _ _ _ hid] at hl
          exact h2 id0 i0 hl
      · intro id0 v0 hl
        by_cases hid : id0 = eventId
        · subst hid
          rw [show ({ s with
              eventHandlersByVariant :=
                insertA s.eventHandlersByVariant v ((handlersFor s v).set i none)
              variantByEventId := eraseA s.variantByEventId id0
              eventHandlerIdxByEventId :=
                eraseA s.eventHandlerIdxByEventId id0 } : Service).variantByEventId
              = eraseA s.variantByEventId id0 from rfl,
            lookupA_eraseA_self] at hl
          cases hl
        · rw [show ({ s with
              eventHandlersByVariant :=
                insertA s.eventHandlersByVariant v ((handlersFor s v).set i none)
              variantByEventId := eraseA s.variantByEventId eventId
              eventHandlerIdxByEventId :=
                eraseA s.eventHandlerIdxByEventId eventId } : Service).variantByEventId
              = eraseA s.variantByEventId eventId from rfl,
            lookupA_eraseA_ne _ _ _ hid] at hl
          obtain ⟨i0, hi0, h0, hslot⟩ := h3 id0 v0 hl
          refine ⟨i0, ?_, h0, ?_⟩
          · rw [show ({ s with
                eventHandlersByVariant :=
                  insertA s.eventHandlersByVariant v ((handlersFor s v).set i none)
                variantByEventId := eraseA s.variantByEventId eventId
                eventHandlerIdxByEventId :=
                  eraseA s.eventHandlerIdxByEventId eventId } : Service).eventHandlerIdxByEventId
                = eraseA s.eventHandlerIdxByEventId eventId from rfl,
              lookupA_eraseA_ne _ _ _ hid]
            exact hi0
          · by_cases hv0 : v0 = v
            · subst hv0
              have hii : i0 ≠ i := by
                intro hii
                subst hii
                exact hid (h4 id0 eventId v0 i0 hl hv hi0 hi)
              rw [show handlersFor ({ s with
                  eventHandlersByVariant :=
                    insertA s.eventHandlersByVariant v0 ((handlersFor s v0).set i none)
                  variantByEventId := eraseA s.variantByEventId eventId
                  eventHandlerIdxByEventId :=
                    eraseA s.eventHandlerIdxByEventId eventId } : Service) v0
                  = (handlersFor s v0).set i none by
                    simp [handlersFor, insertA, lookupA],
                get?_set_of_ne _ _ _ _ hii]
              exact hslot
            · rw [show handlersFor ({ s with
                  eventHandlersByVariant :=
                    insertA s.eventHandlersByVariant v ((handlersFor s v).set i none)
                  variantByEventId := eraseA s.variantByEventId eventId
                  eventHandlerIdxByEventId :=
                    eraseA s.eventHandlerIdxByEventId eventId } : Service) v0
                  = handlersFor s v0 by
                    simp [handlersFor, insertA, lookupA_cons_ne _ _ _ _ hv0]]
              exact hslot
      · intro id1 id2 v0 i0 a1 a2 b1 b2
        have hid1 : id1 ≠ eventId := by
          intro h
          subst h
          rw [show ({ s with
              eventHandlersByVariant :=
                insertA s.eventHandlersByVariant v ((handlersFor s v).set i none)
              variantByEventId := eraseA s.variantByEventId id1
              eventHandlerIdxByEventId :=
                eraseA s.eventHandlerIdxByEventId id1 } : Service).variantByEventId
              = eraseA s.variantByEventId id1 from rfl,
            lookupA_eraseA_self] at a1
          cases a1
        have hid2 : id2 ≠ eventId := by
          intro h
          subst h
          rw [show ({ s with
              eventHandlersByVariant :=
                insertA s.eventHandlersByVariant v ((handlersFor s v).set i none)
              variantByEventId := eraseA s.variantByEventId id2
              eventHandlerIdxByEventId :=
                eraseA s.eventHandlerIdxByEventId id2 } : Service).variantByEventId
              = eraseA s.variantByEventId id2 from rfl,
            lookupA_eraseA_self] at a2
          cases a2
        rw [show ({ s with
            eventHandlersByVariant :=
              insertA s.eventHandlersByVariant v ((handlersFor s v).set i none)
            variantByEventId := eraseA s.variantByEventId eventId
            eventHandlerIdxByEventId :=
              eraseA s.eventHandlerIdxByEventId eventId } : Service).variantByEventId
            = eraseA s.variantByEventId eventId from rfl,
          lookupA_eraseA_ne _ _ _ hid1] at a1
        rw [show ({ s with
            eventHandlersByVariant :=
              insertA s.eventHandlersByVariant v ((handlersFor s v).set i none)
            variantByEventId := eraseA s.variantByEventId eventId
            eventHandlerIdxByEventId :=
              eraseA s.eventHandlerIdxByEventId eventId } : Service).variantByEventId
            = eraseA s.variantByEventId eventId from rfl,
          lookupA_eraseA_ne _ _ _ hid2] at a2
        rw [show ({ s with
            eventHandlersByVariant :=
              insertA s.eventHandlersByVariant v ((handlersFor s v).set i none)
            variantByEventId := eraseA s.variantByEventId eventId
            eventHandlerIdxByEventId :=
              eraseA s.eventHandlerIdxByEventId eventId } : Service).eventHandlerIdxByEventId
            = eraseA s.eventHandlerIdxByEventId eventId from rfl,
          lookupA_eraseA_ne _ _ _ hid1] at b1
        rw [show ({ s with
            eventHandlersByVariant :=
              insertA s.eventHandlersByVariant v ((handlersFor s v).set i none)
            variantByEventId := eraseA s.variantByEventId eventId
            eventHandlerIdxByEventId :=
              eraseA s.eventHandlerIdxByEventId eventId } : Service).eventHandlerIdxByEventId
            = eraseA s.eventHandlerIdxByEventId eventId from rfl,
          lookupA_eraseA_ne _ _ _ hid2] at b2
        exact h4 id1 id2 v0 i0 a1 a2 b1 b2

theorem inv_execS : ∀ (ops : List SOp) (s : Service), Inv s →
    Inv (execS ops s) := by
  intro ops
  induction ops with
  | nil => intro s hs; exact hs
  | cons op ops ih =>
    intro s hs
    cases op with
    | addL v h => exact ih _ (inv_AddEventListener s v h hs)
    | removeL eventId => exact ih _ (inv_RemoveEventListener s eventId hs)

theorem lookup_none_of_le (s : Service) (hs : Inv s) (eventId : Nat)
    (h : s.eventHandlersCount ≤ eventId) :
    lookupA s.variantByEventId eventId = none := by
  cases hl : lookupA s.variantByEventId eventId with
  | none => rfl
  | some v => exact absurd (hs.1 eventId v hl) (Nat.not_lt.2 h)

theorem remove_preserves_reg (s : Service) (hs : Inv s)
    (eventId eventId' : Nat) (hne : eventId' ≠ eventId) :
    regVariant (RemoveEventListener s eventId) eventId' =
        regVariant s eventId' ∧
    regIdx (RemoveEventListener s eventId) eventId' = regIdx s eventId' ∧
    regSlot (RemoveEventListener s eventId) eventId' = regSlot s eventId' := by
  cases hv : lookupA s.variantByEventId eventId with
  | none =>
    rw [RemoveEventListener_noop s eventId hv]
    exact ⟨rfl, rfl, rfl⟩
  | some v =>
    cases hi : lookupA s.eventHandlerIdxByEventId eventId with
    | none =>
      rw [RemoveEventListener_noop2 s eventId v hv hi]
      exact ⟨rfl, rfl, rfl⟩
    | some i =>
      rw [RemoveEventListener_eq s eventId v i hv hi]
      have e1 : regVariant ({ s with
          eventHandlersByVariant :=
            insertA s.eventHandlersByVariant v ((handlersFor s v).set i none)
          variantByEventId := eraseA s.variantByEventId eventId
          eventHandlerIdxByEventId :=
            eraseA s.eventHandlerIdxByEventId eventId } : Service) eventId' =
          regVariant s eventId' := lookupA_eraseA_ne _ _ _ hne
      have e2 : regIdx ({ s with
          eventHandlersByVariant :=
            insertA s.eventHandlersByVariant v ((handlersFor s v).set i none)
          variantByEventId := eraseA s.variantByEventId eventId
          eventHandlerIdxByEventId :=
            eraseA s.eventHandlerIdxByEventId eventId } : Service) eventId' =
          regIdx s eventId' := lookupA_eraseA_ne _ _ _ hne
      refine ⟨e1, e2, ?_⟩
      unfold regSlot
      rw [e1, e2]
      cases hval : regVariant s eventId' with
      | none => rfl
      | some v0 =>
        cases hidx : regIdx s eventId' with
        | none => rfl
        | some i0 =>
          show (handlersFor ({ s with
              eventHandlersByVariant :=
                insertA s.eventHandlersByVariant v ((handlersFor s v).set i none)
              variantByEventId := eraseA s.variantByEventId eventId
              eventHandlerIdxByEventId :=
                eraseA s.eventHandlerIdxByEventId eventId } : Service) v0).get? i0 =
            (handlersFor s v0).get? i0
          by_cases hv0 : v0 = v
          · subst hv0
            have hii : i0 ≠ i := by
              intro hii
              subst hii
              exact hne (hs.2.2.2 eventId' eventId v0 i0 hval hv hidx hi)
            rw [show handlersFor ({ s with
                eventHandlersByVariant :=
                  insertA s.eventHandlersByVariant v0 ((handlersFor s v0).set i none)
                variantByEventId := eraseA s.variantByEventId eventId
                eventHandlerIdxByEventId :=
                  eraseA s.eventHandlerIdxByEventId eventId } : Service) v0
                = (handlersFor s v0).set i none by
                  simp [handlersFor, insertA, lookupA]]
            exact get?_set_of_ne _ _ _ _ hii
          · rw [show handlersFor ({ s with
                eventHandlersByVariant :=
                  insertA s.eventHandlersByVariant v ((handlersFor s v).set i none)
                variantByEventId := eraseA s.variantByEventId eventId
                eventHandlerIdxByEventId :=
                  eraseA s.eventHandlerIdxByEventId eventId } : Service) v0
                = handlersFor s v0 by
                  simp [handlersFor, insertA, lookupA_cons_ne _ _ _ _ hv0]]

/-! ### Claims C6 and C7 -/

/-- **C6**.  `RemoveEventListener` is idempotent: removing the same id twice
equals removing it once; removing an id that is unknown to the node's tables
(in particular one that was already removed) is a silent no-op returning the
state unchanged; and an id never issued by the node (any id at or above the
running counter, for every state reachable from a fresh service) is likewise
a silent no-op — hence all subsequent dispatch behaviour is unchanged. -/
theorem c6_remove_listener_idempotent :
    (∀ (s : Service) (eventId : Nat),
      RemoveEventListener (RemoveEventListener s eventId) eventId =
        RemoveEventListener s eventId) ∧
    (∀ (s : Service) (eventId : Nat),
      lookupA s.variantByEventId eventId = none →
      RemoveEventListener s eventId = s) ∧
    (∀ (ops : List SOp) (cfg : Option Nat) (eventId : Nat),
      (execS ops (NewService cfg)).eventHandlersCount ≤ eventId →
      RemoveEventListener (execS ops (NewService cfg)) eventId =
        execS ops (NewService cfg)) := by
  refine ⟨?_, ?_, ?_⟩
  · intro s eventId
    cases hv : lookupA s.variantByEventId eventId with
    | none =>
      have e := RemoveEventListener_noop s eventId hv
      rw [e]
      exact e
    | some v =>
      cases hi : lookupA s.eventHandlerIdxByEventId eventId with
      | none =>
        have e := RemoveEventListener_noop2 s eventId v hv hi
        rw [e]
        exact e
      | some i =>
        rw [RemoveEventListener_eq s eventId v i hv hi]
        exact RemoveEventListener_noop _ _ (lookupA_eraseA_self _ _)
  · intro s eventId h
    exact RemoveEventListener_noop s eventId h
  · intro ops cfg eventId h
    exact RemoveEventListener_noop _ _
      (lookup_none_of_le _ (inv_execS ops _ (inv_NewService cfg)) _ h)

/-- **C6** witness: idempotence on a concrete two-listener node at id 0, the
silent no-op on a fresh node at the never-issued id 5, and the no-op on a
concrete reachable one-listener state at id 7 (its counter is 1). -/
theorem c6_remove_listener_idempotent_witness :
    RemoveEventListener (RemoveEventListener svcVetoFirst 0) 0 =
      RemoveEventListener svcVetoFirst 0 ∧
    RemoveEventListener (NewService none) 5 = NewService none ∧
    RemoveEventListener
        (execS [SOp.addL "someEvent" hVeto] (NewService none)) 7 =
      execS [SOp.addL "someEvent" hVeto] (NewService none) :=
  ⟨c6_remove_listener_idempotent.1 svcVetoFirst 0,
   c6_remove_listener_idempotent.2.1 (NewService none) 5 rfl,
   c6_remove_listener_idempotent.2.2 [SOp.addL "someEvent" hVeto] none 7
     (by decide)⟩

/-- **C7**.  Handler-id invariant across every sequence of
`AddEventListener`/`RemoveEventListener` calls on one `Service` instance:
the registration tables satisfy `Inv` (ids below the counter, both id maps
aligned, every live id pointing at an in-range non-tombstoned slot, no two
live ids of one variant sharing a slot); `AddEventListener` returns the
current counter — an id never in use, so ids are strictly increasing and
never reused or renumbered — and bumps the counter by one;
`RemoveEventListener` never changes the counter; and removing one id leaves
the recorded variant, the recorded slot index, and the slot contents of every
other id untouched (the removed slot is tombstoned in place, nothing is
shifted). -/
theorem c7_handler_id_invariant :
    ∀ (ops : List SOp) (cfg : Option Nat),
      Inv (execS ops (NewService cfg)) ∧
      (∀ (v : EventVariant) (h : EventHandler),
        (AddEventListener (execS ops (NewService cfg)) v h).2 =
            (execS ops (NewService cfg)).eventHandlersCount ∧
        (AddEventListener (execS ops (NewService cfg)) v h).1.eventHandlersCount =
            (execS ops (NewService cfg)).eventHandlersCount + 1 ∧
        regVariant (execS ops (NewService cfg))
            (AddEventListener (execS ops (NewService cfg)) v h).2 = none) ∧
      (∀ eventId : Nat,
        (RemoveEventListener (execS ops (NewService cfg)) eventId).eventHandlersCount =
          (execS ops (NewService cfg)).eventHandlersCount) ∧
      (∀ eventId eventId' : Nat, eventId' ≠ eventId →
        regVariant (RemoveEventListener (execS ops (NewService cfg)) eventId)
              eventId' =
            regVariant (execS ops (NewService cfg)) eventId' ∧
        regIdx (RemoveEventListener (execS ops (NewService cfg)) eventId)
              eventId' =
            regIdx (execS ops (NewService cfg)) eventId' ∧
        regSlot (RemoveEventListener (execS ops (NewService cfg)) eventId)
              eventId' =
            regSlot (execS ops (NewService cfg)) eventId') := by
  intro ops cfg
  have hinv : Inv (execS ops (NewService cfg)) :=
    inv_execS ops _ (inv_NewService cfg)
  refine ⟨hinv, ?_, ?_, ?_⟩
  · intro v h
    refine ⟨rfl, rfl, ?_⟩
    exact lookup_none_of_le _ hinv _ (Nat.le_refl _)
  · intro eventId
    exact count_RemoveEventListener _ eventId
  · intro eventId eventId' hne
    exact remove_preserves_reg _ hinv eventId eventId' hne

/-- **C7** witness: the invariant statement evaluated after the concrete
operation sequence add-add-remove, with the distinct-id hypothesis discharged
at ids 1 and 0. -/
theorem c7_handler_id_invariant_witness :
    Inv (execS [SOp.addL "someEvent" hVeto, SOp.addL ALL_EVENTS hAllow,
        SOp.removeL 0] (NewService none)) ∧
    (AddEventListener (execS [SOp.addL "someEvent" hVeto,
        SOp.addL ALL_EVENTS hAllow, SOp.removeL 0] (NewService none))
        "someEvent" hTrue).2 =
      (execS [SOp.addL "someEvent" hVeto, SOp.addL ALL_EVENTS hAllow,
        SOp.removeL 0] (NewService none)).eventHandlersCount ∧
    (regVariant (RemoveEventListener
        (execS [SOp.addL "someEvent" hVeto, SOp.addL ALL_EVENTS hAllow,
          SOp.removeL 0] (NewService none)) 0) 1 =
      regVariant (execS [SOp.addL "someEvent" hVeto,
        SOp.addL ALL_EVENTS hAllow, SOp.removeL 0] (NewService none)) 1) :=
  ⟨(c7_handler_id_invariant [SOp.addL "someEvent" hVeto,
      SOp.addL ALL_EVENTS hAllow, SOp.removeL 0] none).1,
   ((c7_handler_id_invariant [SOp.addL "someEvent" hVeto,
      SOp.addL ALL_EVENTS hAllow, SOp.removeL 0] none).2.1 "someEvent" hTrue).1,
   ((c7_handler_id_invariant [SOp.addL "someEvent" hVeto,
      SOp.addL ALL_EVENTS hAllow, SOp.removeL 0] none).2.2.2 0 1
      (by decide)).1⟩

/-! ### The embedding composite: declared fields, reflection-based
`Dependencies` and `AddDependency` -/

/-- How a declared field of a composite relates to the `ServiceI` interface:
a concrete pointer-to-service type (`*CutterService`), the `ServiceI`
interface type itself, or a type that does not implement `ServiceI`
(including the embedded `Service` value, whose `ServiceI` methods have
pointer receivers). -/
inductive FieldKind where
  | servicePtr
  | serviceIface
  | nonService
deriving DecidableEq

/-- One declared field of the struct embedding `Service`: its name, whether
it is exported (Go reflection's `CanInterface`/`CanSet`), its kind with
respect to `ServiceI`, the name of its declared element type, and the
service value currently stored in it (`none` is a nil pointer / nil
interface). -/
structure Field where
  name : String
  exported : Bool
  kind : FieldKind
  typeName : String
  value : Option Nat
deriving DecidableEq

/-- A dependency passed to `AddDependency`: its concrete element type name
(`reflect.TypeOf(dep).Elem().Name()`), its identity, and its parent
back-reference. -/
structure Dep where
  typeName : String
  depId : Nat
  parent : Option Nat
deriving DecidableEq

/-- A composite: its identity (for parent back-references), the embedded
base `Service`, and its declared fields in declaration order. -/
structure Composite where
  cid : Nat
  svc : Service
  fields : List Field

/-- Whether `reflect.Value.Set` accepts storing the dependency in the field:
the declared type is the dependency's own pointer type, or it is the
`ServiceI` interface (to which every service value is assignable). -/
def assignable (f : Field) (d : Dep) : Bool :=
  (decide (f.kind = FieldKind.servicePtr) && decide (f.typeName = d.typeName))
    || decide (f.kind = FieldKind.serviceIface)

/-- Store a value in every field with the given name (field names of one
struct are unique, so at most one field changes). -/
def setFieldValue (fs : List Field) (n : String) (x : Option Nat) :
    List Field :=
  fs.map (fun f => if f.name = n then { f with value := x } else f)

/-- `func (s *Service) AddDependency(dep ServiceI)` from `src/service.go`
(lines 246-254): take the dependency's concrete element type NAME, look the
field up by that name (`FieldByName`), store the dependency there and set its
parent to the owning composite.  `none` models the panic that
`reflect.Value.Set` raises when `FieldByName` found no field of that name
(zero `Value`), when the field is unexported (`CanSet` false), or when the
dependency is not assignable to the field's declared type. -/
def AddDependency (c : Composite) (d : Dep) : Option (Composite × Dep) :=
  match c.fields.find? (fun f => decide (f.name = d.typeName)) with
  | none => none
  | some f =>
    if f.exported && assignable f d then
      some ({ c with fields := setFieldValue c.fields d.typeName (some d.depId) },
            { d with parent := some c.cid })
    else none

/-- Whether the Go type assertion `fieldVal.Interface().(ServiceI)` inside
`Dependencies` succeeds for a field's current value: always for a field of a
concrete pointer-to-service type (a typed nil pointer still carries the
type), and only for a non-nil value of an interface-typed field (a nil
interface fails the assertion). -/
def satisfiesServiceI (f : Field) : Bool :=
  match f.kind with
  | .servicePtr => true
  | .serviceIface => f.value.isSome
  | .nonService => false

/-- `func (s *Service) Dependencies() []ServiceI` from `src/service.go`
(lines 222-244): walk the embedding struct's fields in declaration order,
skip unexported ones (`CanInterface`), and collect each field's value whose
type assertion to `ServiceI` succeeds. -/
def Dependencies (c : Composite) : List (Option Nat) :=
  c.fields.filterMap (fun f =>
    if f.exported && satisfiesServiceI f then some f.value else none)

/-- Modelled from the spec: the slot-resolution rule of section 4.2 (absent
from the source, which resolves by field name only): first a slot whose
declared type exactly matches the child's concrete type, otherwise the first
slot in declaration order whose declared type is a capability-compatible
interface the child is assignable to. -/
def specFindSlot (c : Composite) (d : Dep) : Option Field :=
  match c.fields.find? (fun f =>
      decide (f.kind = FieldKind.servicePtr) && decide (f.typeName = d.typeName)) with
  | some f => some f
  | none => c.fields.find? (fun f => decide (f.kind = FieldKind.serviceIface))

/-- The declared fields of `AdderService` from the repository's test file, in
declaration order: the embedded `Service` (a value, so it does not satisfy
`ServiceI`), two unexported `Marker` fields, three exported dependency slots
(the third holding a `*StrangeService` under a name that differs from the
type), and unexported state fields. -/
def adderFields : List Field :=
  [⟨"Service", true, FieldKind.nonService, "Service", none⟩,
   ⟨"__dependencies__", false, FieldKind.nonService, "Marker", none⟩,
   ⟨"CutterService", true, FieldKind.servicePtr, "CutterService", none⟩,
   ⟨"OtherSubService", true, FieldKind.servicePtr, "OtherSubService", none⟩,
   ⟨"StrangelyNamedServiceField", true, FieldKind.servicePtr,
     "StrangeService", none⟩,
   ⟨"__state__", false, FieldKind.nonService, "Marker", none⟩,
   ⟨"fieldA", false, FieldKind.nonService, "int", none⟩,
   ⟨"startCallCount", false, FieldKind.nonService, "int", none⟩,
   ⟨"buildCallCount", false, FieldKind.nonService, "int", none⟩]

/-- A fresh `AdderService` composite. -/
def adderService : Composite := ⟨0, NewService (some 0), adderFields⟩

/-- A `*StrangeService` dependency (concrete type name "StrangeService"). -/
def strangeDep : Dep := ⟨"StrangeService", 3, none⟩

/-- A `*NonsenseService` dependency: no field of `AdderService` matches it
under any rule. -/
def nonsenseDep : Dep := ⟨"NonsenseService", 9, none⟩

/-- A `*CutterService` dependency: `AdderService` declares a slot whose name
and type both match. -/
def cutterDep : Dep := ⟨"CutterService", 1, none⟩

/-! ### Claims C4 and C8 -/

/-- **C4** (code bug).  The claim (and the spec, and the repository's own
"ambiguously named field" test) say slot resolution tries an exact
concrete-type match and then falls back to a compatible slot in declaration
order.  The code instead resolves only by field name equal to the dependency
type's name: attaching a `*StrangeService` to an `AdderService` — which
declares the exactly-matching slot `StrangelyNamedServiceField
*StrangeService` — panics (`FieldByName` finds no field named
"StrangeService"), while the name-coincident `*CutterService` attach
succeeds, setting the slot and the child's parent back-reference. -/
theorem c4_slot_resolution_code_eval :
    AddDependency adderService strangeDep = none ∧
    specFindSlot adderService strangeDep =
      some ⟨"StrangelyNamedServiceField", true, FieldKind.servicePtr,
        "StrangeService", none⟩ ∧
    AddDependency adderService cutterDep =
      some ({ adderService with
                fields := setFieldValue adderFields "CutterService" (some 1) },
            { cutterDep with parent := some 0 }) :=
  ⟨rfl, rfl, rfl⟩

/-- **C8** (code bug).  A child with no matching field anywhere does fail at
the call site as claimed (`nonsenseDep`), but a child that does match under
the claim's rules need not succeed: the `*StrangeService` child matches the
declared `*StrangeService` slot exactly by type, yet the call panics because
resolution is by name only; the name-coincident `*CutterService` child
succeeds. -/
theorem c8_unresolvable_slot_eval :
    AddDependency adderService nonsenseDep = none ∧
    specFindSlot adderService nonsenseDep = none ∧
    (AddDependency adderService cutterDep).isSome = true ∧
    AddDependency adderService strangeDep = none ∧
    (specFindSlot adderService strangeDep).isSome = true :=
  ⟨rfl, rfl, rfl, rfl, rfl⟩

/-! ### Claim C9: config immutability -/

/-- One core operation on a composite. -/
inductive COp where
  | addL (v : EventVariant) (h : EventHandler)
  | removeL (eventId : Nat)
  | dispatchE (e : Event)
  | addDep (d : Dep)

/-- Apply one core operation.  `Dispatch` reads the handler tables and
writes no field of the service, so it leaves the state unchanged in this
pure model; a panicking `AddDependency` likewise changes nothing. -/
def stepC (c : Composite) : COp → Composite
  | .addL v h => { c with svc := (AddEventListener c.svc v h).1 }
  | .removeL eventId => { c with svc := RemoveEventListener c.svc eventId }
  | .dispatchE _ => c
  | .addDep d =>
    match AddDependency c d with
    | some p => p.1
    | none => c

/-- Run a sequence of core operations. -/
def execC : List COp → Composite → Composite
  | [], c => c
  | op :: ops, c => execC ops (stepC c op)

theorem AddDependency_parts (c : Composite) (d : Dep) (p : Composite × Dep)
    (h : AddDependency c d = some p) :
    p.1.svc = c.svc ∧ p.1.cid = c.cid ∧
    p.1.fields = setFieldValue c.fields d.typeName (some d.depId) := by
  unfold AddDependency at h
  cases hf : c.fields.find? (fun f => decide (f.name = d.typeName)) with
  | none => rw [hf] at h; cases h
  | some f =>
    rw [hf] at h
    have h2 : (if (f.exported && assignable f d) = true then
        some (({ c with
            fields := setFieldValue c.fields d.typeName (some d.depId) } :
              Composite),
          ({ d with parent := some c.cid } : Dep))
      else none) = some p := h
    by_cases hc : (f.exported && assignable f d) = true
    · rw [if_pos hc] at h2
      injection h2 with h2
      rw [← h2]
      exact ⟨rfl, rfl, rfl⟩
    · rw [if_neg hc] at h2
      cases h2

theorem config_RemoveEventListener (s : Service) (eventId : Nat) :
    (RemoveEventListener s eventId).config = s.config := by
  cases hv : lookupA s.variantByEventId eventId with
  | none => rw [RemoveEventListener_noop s eventId hv]
  | some v =>
    cases hi : lookupA s.eventHandlerIdxByEventId eventId with
    | none => rw [RemoveEventListener_noop2 s eventId v hv hi]
    | some i => rw [RemoveEventListener_eq s eventId v i hv hi]

theorem config_stepC (c : Composite) (op : COp) :
    (stepC c op).svc.config = c.svc.config := by
  cases op with
  | addL v h => rfl
  | removeL eventId => exact config_RemoveEventListener c.svc eventId
  | dispatchE e => rfl
  | addDep d =>
    show (match AddDependency c d with
      | some p => p.1
      | none => c).svc.config = c.svc.config
    cases h : AddDependency c d with
    | none => rfl
    | some p => rw [(AddDependency_parts c d p h).1]

/-- **C9**.  A node's config is set once at construction and immutable
afterward: for every sequence of core operations (dispatch, listener
add/remove, dependency attachment), `Config` still returns what it returned
initially, and when the initial state was built by `NewService cfg` it
returns exactly `cfg`. -/
theorem c9_config_immutable :
    (∀ (ops : List COp) (c : Composite),
      Service.Config (execC ops c).svc = Service.Config c.svc) ∧
    (∀ (ops : List COp) (cid : Nat) (cfg : Option Nat) (fs : List Field),
      Service.Config (execC ops (Composite.mk cid (NewService cfg) fs)).svc =
        cfg) := by
  have main : ∀ (ops : List COp) (c : Composite),
      (execC ops c).svc.config = c.svc.config := by
    intro ops
    induction ops with
    | nil => intro c; rfl
    | cons op ops ih =>
      intro c
      show (execC ops (stepC c op)).svc.config = c.svc.config
      rw [ih (stepC c op), config_stepC]
  exact ⟨fun ops c => main ops c,
    fun ops cid cfg fs => main ops (Composite.mk cid (NewService cfg) fs)⟩

/-! ### Claim C10: `Dependencies` is determined by the declared fields -/

/-- No declared field has the interface kind (every dependency slot of the
test composites is a concrete pointer slot, matching the claim's "typed nil
pointers"). -/
def noIface (fs : List Field) : Prop :=
  ∀ f ∈ fs, f.kind ≠ FieldKind.serviceIface

/-- The declared fields whose current value passes the `ServiceI` assertion
inside `Dependencies`, in declaration order. -/
def depSlots (c : Composite) : List Field :=
  c.fields.filter (fun f => f.exported && satisfiesServiceI f)

/-- The exported concrete-pointer dependency slots, in declaration order. -/
def ptrSlots (c : Composite) : List Field :=
  c.fields.filter (fun f =>
    f.exported && decide (f.kind = FieldKind.servicePtr))

/-- The names of the exported concrete-pointer dependency slots, in
declaration order. -/
def ptrSlotNames (fs : List Field) : List String :=
  fs.filterMap (fun f =>
    if f.exported && decide (f.kind = FieldKind.servicePtr) then some f.name
    else none)

theorem filterMap_if_eq_map_filter {β : Type} (p : Field → Bool)
    (g : Field → β) :
    ∀ fs : List Field,
      fs.filterMap (fun f => if p f then some (g f) else none) =
        (fs.filter p).map g := by
  intro fs
  induction fs with
  | nil => rfl
  | cons f fs ih =>
    by_cases h : p f = true <;>
      simp [List.filterMap_cons, List.filter_cons, h, ih]

theorem filter_congr_mem (p q : Field → Bool) :
    ∀ fs : List Field, (∀ f ∈ fs, p f = q f) →
      fs.filter p = fs.filter q := by
  intro fs
  induction fs with
  | nil => intro _; rfl
  | cons f fs ih =>
    intro h
    have hf := h f (List.mem_cons_self f fs)
    have hrest := ih fun g hg => h g (List.mem_cons_of_mem f hg)
    by_cases hp : p f = true
    · rw [List.filter_cons, List.filter_cons, hp, ← hf, hp, hrest]
    · have hq : q f ≠ true := fun hq => hp (hf ▸ hq)
      rw [List.filter_cons, List.filter_cons,
        Bool.of_not_eq_true hp, Bool.of_not_eq_true hq, hrest]

theorem ptrSlotNames_cons (f : Field) (fs : List Field) :
    ptrSlotNames (f :: fs) =
      (if f.exported && decide (f.kind = FieldKind.servicePtr) then
        f.name :: ptrSlotNames fs
      else ptrSlotNames fs) := by
  by_cases h : (f.exported && decide (f.kind = FieldKind.servicePtr)) = true
  · rw [if_pos h]
    unfold ptrSlotNames
    rw [List.filterMap_cons, if_pos h]
  · rw [if_neg h]
    unfold ptrSlotNames
    rw [List.filterMap_cons, if_neg h]

theorem ptrSlotNames_setFieldValue (n : String) (x : Option Nat) :
    ∀ fs : List Field, ptrSlotNames (setFieldValue fs n x) = ptrSlotNames fs := by
  intro fs
  induction fs with
  | nil => rfl
  | cons f fs ih =>
    rw [show setFieldValue (f :: fs) n x =
      (if f.name = n then { f with value := x } else f) ::
        setFieldValue fs n x from rfl]
    by_cases hn : f.name = n
    · rw [if_pos hn, ptrSlotNames_cons, ptrSlotNames_cons, ih]
    · rw [if_neg hn, ptrSlotNames_cons, ptrSlotNames_cons, ih]

theorem noIface_setFieldValue (n : String) (x : Option Nat)
    (fs : List Field) (h : noIface fs) : noIface (setFieldValue fs n x) := by
  intro f hf
  rw [setFieldValue, List.mem_map] at hf
  obtain ⟨g, hg, rfl⟩ := hf
  by_cases hn : g.name = n
  · rw [if_pos hn]
    exact h g hg
  · rw [if_neg hn]
    exact h g hg

theorem ptrSlotNames_stepC (c : Composite) (op : COp) :
    ptrSlotNames (stepC c op).fields = ptrSlotNames c.fields := by
  cases op with
  | addL v h => rfl
  | removeL eventId => rfl
  | dispatchE e => rfl
  | addDep d =>
    show ptrSlotNames (match AddDependency c d with
      | some p => p.1
      | none => c).fields = ptrSlotNames c.fields
    cases h : AddDependency c d with
    | none => rfl
    | some p =>
      rw [(AddDependency_parts c d p h).2.2, ptrSlotNames_setFieldValue]

theorem noIface_stepC (c : Composite) (op : COp)
    (h : noIface c.fields) : noIface (stepC c op).fields := by
  cases op with
  | addL v hh => exact h
  | removeL eventId => exact h
  | dispatchE e => exact h
  | addDep d =>
    show noIface (match AddDependency c d with
      | some p => p.1
      | none => c).fields
    cases hd : AddDependency c d with
    | none => exact h
    | some p =>
      rw [(AddDependency_parts c d p hd).2.2]
      exact noIface_setFieldValue _ _ _ h

theorem ptrSlotNames_execC :
    ∀ (ops : List COp) (c : Composite),
      ptrSlotNames (execC ops c).fields = ptrSlotNames c.fields := by
  intro ops
  induction ops with
  | nil => intro c; rfl
  | cons op ops ih =>
    intro c
    show ptrSlotNames (execC ops (stepC c op)).fields = _
    rw [ih (stepC c op), ptrSlotNames_stepC]

theorem noIface_execC :
    ∀ (ops : List COp) (c : Composite), noIface c.fields →
      noIface (execC ops c).fields := by
  intro ops
  induction ops with
  | nil => intro c h; exact h
  | cons op ops ih =>
    intro c h
    exact ih (stepC c op) (noIface_stepC c op h)

theorem depSlots_eq_ptrSlots (c : Composite) (h : noIface c.fields) :
    depSlots c = ptrSlots c := by
  unfold depSlots ptrSlots
  apply filter_congr_mem
  intro f hf
  have hk := h f hf
  cases hc : f.kind with
  | servicePtr => simp [satisfiesServiceI, hc]
  | serviceIface => exact absurd hc hk
  | nonService => simp [satisfiesServiceI, hc]

theorem Dependencies_eq_depSlots (c : Composite) :
    Dependencies c = (depSlots c).map Field.value :=
  filterMap_if_eq_map_filter _ Field.value c.fields

theorem length_Dependencies_of_noIface (c : Composite)
    (h : noIface c.fields) :
    (Dependencies c).length = (ptrSlotNames c.fields).length := by
  rw [Dependencies_eq_depSlots, depSlots_eq_ptrSlots c h, List.length_map,
    show ptrSlotNames c.fields = (ptrSlots c).map Field.name from
      filterMap_if_eq_map_filter _ Field.name c.fields,
    List.length_map]

/-- **C10**.  `Dependencies()` enumerates the embedding composite's exported
fields in declaration order, returning each field whose value passes the
`ServiceI` type assertion — for a composite whose dependency slots are
concrete pointer slots this is exactly the exported pointer slots, so a
never-attached slot is returned as its typed nil pointer (`none` value) —
and the enumeration is determined by the field declarations alone:
`AddDependency` appends to no internal list, and across every sequence of
core operations the slot-name sequence and the number of entries returned
are unchanged. -/
theorem c10_dependencies_from_declared_fields :
    (∀ c : Composite, Dependencies c = (depSlots c).map Field.value) ∧
    (∀ c : Composite, noIface c.fields →
      Dependencies c = (ptrSlots c).map Field.value) ∧
    (∀ (c : Composite) (f : Field), f ∈ c.fields → f.exported = true →
      f.kind = FieldKind.servicePtr → f.value ∈ Dependencies c) ∧
    (∀ (c : Composite) (ops : List COp),
      ptrSlotNames (execC ops c).fields = ptrSlotNames c.fields) ∧
    (∀ (c : Composite) (ops : List COp), noIface c.fields →
      (Dependencies (execC ops c)).length = (Dependencies c).length) := by
  refine ⟨Dependencies_eq_depSlots, ?_, ?_, ?_, ?_⟩
  · intro c h
    rw [Dependencies_eq_depSlots, depSlots_eq_ptrSlots c h]
  · intro c f hf hexp hkind
    rw [Dependencies_eq_depSlots]
    refine List.mem_map_of_mem Field.value ?_
    rw [depSlots, List.mem_filter]
    exact ⟨hf, by unfold satisfiesServiceI; rw [hexp, hkind]; rfl⟩
  · intro c ops
    exact ptrSlotNames_execC ops c
  · intro c ops h
    rw [length_Dependencies_of_noIface _ (noIface_execC ops c h),
      length_Dependencies_of_noIface _ h, ptrSlotNames_execC]

/-- **C10** witness: the characterisation on the concrete `AdderService`
composite — its three declared pointer slots are returned as typed nils
before any attachment, the never-attached `CutterService` slot's value is
among them, and two attachments leave the enumeration's length unchanged. -/
theorem c10_dependencies_from_declared_fields_witness :
    Dependencies adderService = (ptrSlots adderService).map Field.value ∧
    (Field.mk "CutterService" true FieldKind.servicePtr "CutterService"
        none).value ∈ Dependencies adderService ∧
    (Dependencies (execC [COp.addDep cutterDep, COp.addDep strangeDep]
        adderService)).length = (Dependencies adderService).length :=
  ⟨c10_dependencies_from_declared_fields.2.1 adderService
     (by unfold noIface; decide),
   c10_dependencies_from_declared_fields.2.2.1 adderService
     (Field.mk "CutterService" true FieldKind.servicePtr "CutterService" none)
     (by decide) rfl rfl,
   c10_dependencies_from_declared_fields.2.2.2.2 adderService
     [COp.addDep cutterDep, COp.addDep strangeDep] (by unfold noIface; decide)⟩

/-! ### Claim C5: the Build/Start lifecycle -/

/-- Modelled from the spec: the Build/Start lifecycle controller of spec
section 4.3 is exercised by the repository's Ginkgo tests (Build/OnBuild and
Start/OnStart) but its implementation is not among the provided source
files.  A lifecycle node carries an identity, its monotonic built/started
flags, counters recording how many times its OnBuild/OnStart hooks have run,
and its dependency list in attachment order. -/
inductive LTree where
  | node (nid : Nat) (built started : Bool) (buildCount startCount : Nat)
      (deps : List LTree)

def LTree.nid : LTree → Nat
  | .node i _ _ _ _ _ => i

def LTree.builtFlag : LTree → Bool
  | .node _ b _ _ _ _ => b

def LTree.startedFlag : LTree → Bool
  | .node _ _ st _ _ _ => st

def LTree.buildCount : LTree → Nat
  | .node _ _ _ bc _ _ => bc

def LTree.startCount : LTree → Nat
  | .node _ _ _ _ sc _ => sc

def LTree.deps : LTree → List LTree
  | .node _ _ _ _ _ ds => ds

mutual
/-- Modelled from the spec: `build()` — if already built, no-op; otherwise
run this node's build-hook once (counted), mark built, then build every
dependency in attachment order.  Returns the new tree and the sequence of
node ids whose hook ran, in invocation order (self before children). -/
def buildRun : LTree → LTree × List Nat
  | .node i b st bc sc deps =>
    if b then (.node i b st bc sc deps, [])
    else (.node i true st (bc + 1) sc (buildRunList deps).1,
      i :: (buildRunList deps).2)

def buildRunList : List LTree → List LTree × List Nat
  | [] => ([], [])
  | t :: ts =>
    ((buildRun t).1 :: (buildRunList ts).1,
      (buildRun t).2 ++ (buildRunList ts).2)
end

mutual
/-- Modelled from the spec: `start()` — same shape as `build()` on the
independent started flag. -/
def startRun : LTree → LTree × List Nat
  | .node i b st bc sc deps =>
    if st then (.node i b st bc sc deps, [])
    else (.node i b true bc (sc + 1) (startRunList deps).1,
      i :: (startRunList deps).2)

def startRunList : List LTree → List LTree × List Nat
  | [] => ([], [])
  | t :: ts =>
    ((startRun t).1 :: (startRunList ts).1,
      (startRun t).2 ++ (startRunList ts).2)
end

/-- The tree after one `build()` call. -/
def build (t : LTree) : LTree := (buildRun t).1

/-- The tree after one `start()` call. -/
def start (t : LTree) : LTree := (startRun t).1

theorem builtFlag_build (t : LTree) : (build t).builtFlag = true := by
  cases t with
  | node i b st bc sc deps => cases b <;> simp [build, buildRun, LTree.builtFlag]

theorem startedFlag_start (t : LTree) : (start t).startedFlag = true := by
  cases t with
  | node i b st bc sc deps =>
    cases st <;> simp [start, startRun, LTree.startedFlag]

theorem buildRun_of_built (t : LTree) (h : t.builtFlag = true) :
    buildRun t = (t, []) := by
  cases t with
  | node i b st bc sc deps =>
    have hb : b = true := h
    subst hb
    simp [buildRun]

theorem startRun_of_started (t : LTree) (h : t.startedFlag = true) :
    startRun t = (t, []) := by
  cases t with
  | node i b st bc sc deps =>
    have hb : st = true := h
    subst hb
    simp [startRun]

theorem build_build (t : LTree) : build (build t) = build t := by
  show (buildRun (build t)).1 = build t
  rw [buildRun_of_built _ (builtFlag_build t)]

theorem start_start (t : LTree) : start (start t) = start t := by
  show (startRun (start t)).1 = start t
  rw [startRun_of_started _ (startedFlag_start t)]

theorem buildRunList_append :
    ∀ A B : List LTree,
      buildRunList (A ++ B) =
        ((buildRunList A).1 ++ (buildRunList B).1,
          (buildRunList A).2 ++ (buildRunList B).2) := by
  intro A
  induction A with
  | nil => intro B; simp [buildRunList]
  | cons t ts ih => intro B; simp [buildRunList, ih B]

/-- **C5** (spec-modelled).  Calling `build()` (or `start()`) N ≥ 1 times
triggers the corresponding hook exactly once: the N-fold iterate equals a
single call; one call on an unbuilt node bumps its hook counter exactly
once, and the invocation trace begins with the node's own hook before the
dependency traces, which follow in attachment order (depth-first,
pre-order); a call on an already-built node is a complete no-op and runs no
hook; and building a parent after a child was already independently built
leaves the child's subtree — its hook counter included — unchanged. -/
theorem c5_lifecycle_idempotent :
    (∀ (t : LTree) (N : Nat), 1 ≤ N →
      build^[N] t = build t ∧ start^[N] t = start t) ∧
    (∀ t : LTree, t.builtFlag = false →
      (build t).buildCount = t.buildCount + 1 ∧
      (buildRun t).2 = t.nid :: (buildRunList t.deps).2) ∧
    (∀ t : LTree, t.builtFlag = true → build t = t ∧ (buildRun t).2 = []) ∧
    (∀ t : LTree, (buildRun (build t)).2 = [] ∧ (startRun (start t)).2 = []) ∧
    (∀ (i : Nat) (st : Bool) (bc sc : Nat) (pre post : List LTree)
        (c : LTree),
      build (LTree.node i false st bc sc (pre ++ build c :: post)) =
        LTree.node i true st (bc + 1) sc
          ((buildRunList pre).1 ++ build c :: (buildRunList post).1)) := by
  refine ⟨?_, ?_, ?_, ?_, ?_⟩
  · intro t N h
    induction N with
    | zero => exact absurd h (by decide)
    | succ n ih =>
      rcases Nat.eq_zero_or_pos n with h0 | hpos
      · subst h0
        constructor <;> rw [Function.iterate_one]
      · obtain ⟨ihb, ihs⟩ := ih hpos
        constructor
        · rw [Function.iterate_succ_apply', ihb, build_build]
        · rw [Function.iterate_succ_apply', ihs, start_start]
  · intro t h
    cases t with
    | node i b st bc sc deps =>
      have hb : b = false := h
      subst hb
      exact ⟨by simp [build, buildRun, LTree.buildCount],
        by simp [buildRun, LTree.nid, LTree.deps]⟩
  · intro t h
    refine ⟨?_, ?_⟩
    · show (buildRun t).1 = t
      rw [buildRun_of_built t h]
    · rw [buildRun_of_built t h]
  · intro t
    constructor
    · rw [buildRun_of_built _ (builtFlag_build t)]
    · rw [startRun_of_started _ (startedFlag_start t)]
  · intro i st bc sc pre post c
    show (buildRun (LTree.node i false st bc sc (pre ++ build c :: post))).1 = _
    rw [show buildRun (LTree.node i false st bc sc (pre ++ build c :: post)) =
      (LTree.node i true st (bc + 1) sc
          (buildRunList (pre ++ build c :: post)).1,
        i :: (buildRunList (pre ++ build c :: post)).2) by
      simp [buildRun]]
    rw [buildRunList_append]
    rw [show buildRunList (build c :: post) =
      ((buildRun (build c)).1 :: (buildRunList post).1,
        (buildRun (build c)).2 ++ (buildRunList post).2) from rfl]
    rw [buildRun_of_built _ (builtFlag_build c)]

/-- A concrete two-node lifecycle tree: an unbuilt, unstarted parent with one
unbuilt, unstarted dependency. -/
def wTree : LTree := .node 0 false false 0 0 [.node 1 false false 0 0 []]

/-- **C5** witness: the lifecycle facts evaluated on the concrete two-node
tree, with N = 2 and the unbuilt-flag hypothesis discharged by computation. -/
theorem c5_lifecycle_idempotent_witness :
    build^[2] wTree = build wTree ∧ start^[2] wTree = start wTree ∧
    (build wTree).buildCount = wTree.buildCount + 1 ∧
    (buildRun wTree).2 = wTree.nid :: (buildRunList wTree.deps).2 ∧
    build (LTree.node 2 false false 0 0 ([] ++ build wTree :: [])) =
      LTree.node 2 true false 1 0
        ((buildRunList []).1 ++ build wTree :: (buildRunList []).1) :=
  ⟨(c5_lifecycle_idempotent.1 wTree 2 (by decide)).1,
   (c5_lifecycle_idempotent.1 wTree 2 (by decide)).2,
   (c5_lifecycle_idempotent.2.1 wTree rfl).1,
   (c5_lifecycle_idempotent.2.1 wTree rfl).2,
   c5_lifecycle_idempotent.2.2.2.2 2 false 0 0 [] [] wTree⟩

end ServiceRepo
